import Mathlib

/-!
Shallow embedding of the Go data-pipeline programs
`cmd/csv_to_parquet/main.go` and `cmd/create_iceberg_tables/main.go`
from the repository `mmailhos/the-modern-data-stack`.

Strings are modelled as lists of characters (`Str`).  The Go
standard-library helpers the programs rely on — `filepath.Base`,
`filepath.Ext`, `strings.TrimSuffix`, `strings.ReplaceAll` with
one-character arguments, `strings.Contains`, `strings.TrimSpace` and
`strings.ToUpper` — are embedded below for the `'/'`-separated Unix
paths and ASCII type strings the programs operate on.
-/

abbrev Str := List Char

/-- Path separator test for Unix paths (Go `os.IsPathSeparator` on Linux). -/
def isSep (c : Char) : Bool := c == '/'

/-- The pattern list is a leading segment of the subject list.
Embeds the scan Go `strings.Contains` performs at one candidate offset. -/
def leadsWith : Str → Str → Bool
  | _, [] => true
  | [], _ :: _ => false
  | c :: cs, d :: ds => c == d && leadsWith cs ds

/-- Go `strings.Contains s sub`: `sub` occurs contiguously inside `s`. -/
def goContains (s sub : Str) : Bool :=
  match s with
  | [] => leadsWith [] sub
  | c :: cs => leadsWith (c :: cs) sub || goContains cs sub

/-- Go `strings.HasSuffix s suffix`. -/
def hasSuffix (s suffix : Str) : Bool :=
  leadsWith s.reverse suffix.reverse

/-- Go `strings.TrimSuffix s suffix`: drop `suffix` from the end of `s`
when it is there, otherwise return `s` unchanged. -/
def trimSuffix (s suffix : Str) : Str :=
  if hasSuffix s suffix then s.take (s.length - suffix.length) else s

/-- Go `strings.ReplaceAll s (string pat) (string repl)` for one-character
pattern and replacement, which is exactly a character-wise map. -/
def replaceAllChar (s : Str) (pat repl : Char) : Str :=
  s.map (fun c => if c = pat then repl else c)

/-- Drop trailing path separators (first loop of Go `filepath.Base`). -/
def dropTrailingSlashes (p : Str) : Str :=
  (p.reverse.dropWhile isSep).reverse

/-- Keep the part of `p` after its last separator (second step of
Go `filepath.Base`). -/
def afterLastSlash (p : Str) : Str :=
  (p.reverse.takeWhile (fun c => !isSep c)).reverse

/-- Go `filepath.Base`: empty path gives `"."`; otherwise trailing
separators are stripped and the last path element returned; a path of
only separators gives `"/"`. -/
def goBase (p : Str) : Str :=
  if p = [] then ['.']
  else if afterLastSlash (dropTrailingSlashes p) = [] then ['/']
  else afterLastSlash (dropTrailingSlashes p)

/-- Scan a (reversed) final path element up to and including the first
`'.'`; `none` when there is no dot.  Helper for `goExt`. -/
def takeThroughDot : Str → Option Str
  | [] => none
  | c :: cs => if c = '.' then some [c] else (takeThroughDot cs).map (fun l => c :: l)

/-- Go `filepath.Ext`: the suffix of `p` beginning at the last `'.'` of
the final path element; empty when the final element has no dot. -/
def goExt (p : Str) : Str :=
  match takeThroughDot (p.reverse.takeWhile (fun c => !isSep c)) with
  | none => []
  | some e => e.reverse

/-- `sanitizeTableName` from both `cmd/csv_to_parquet/main.go` and
`cmd/create_iceberg_tables/main.go`: basename, strip the final
extension, then replace every `'-'`, `' '` and `'.'` with `'_'`. -/
def sanitizeTableName (filePath : Str) : Str :=
  let filename := goBase filePath
  let tableName := trimSuffix filename (goExt filename)
  replaceAllChar (replaceAllChar (replaceAllChar tableName '-' '_') ' ' '_') '.' '_'

/-- Go `unicode.IsSpace` restricted to the Latin-1 range; the engine
type strings fed to the converter are ASCII, so the higher Unicode
space runes never arise. -/
def goIsSpace (c : Char) : Bool :=
  c.toNat = 9 || c.toNat = 10 || c.toNat = 11 || c.toNat = 12 ||
  c.toNat = 13 || c.toNat = 32 || c.toNat = 0x85 || c.toNat = 0xA0

/-- Go `strings.TrimSpace`: strip whitespace from both ends. -/
def goTrimSpace (s : Str) : Str :=
  ((s.dropWhile goIsSpace).reverse.dropWhile goIsSpace).reverse

/-- Go `strings.ToUpper` on the ASCII strings in play. -/
def goToUpper (s : Str) : Str :=
  s.map Char.toUpper

/-- The `switch` of `convertDuckDBTypeToIceberg` over the already
normalized type string `typeUpper`. -/
def convertUpperType (typeUpper : Str) : Str :=
  if typeUpper = "BOOLEAN".toList then "boolean".toList
  else if typeUpper = "TINYINT".toList ∨ typeUpper = "SMALLINT".toList ∨
          typeUpper = "INTEGER".toList then "int".toList
  else if typeUpper = "BIGINT".toList then "long".toList
  else if typeUpper = "REAL".toList ∨ typeUpper = "FLOAT".toList then "float".toList
  else if typeUpper = "DOUBLE".toList then "double".toList
  else if goContains typeUpper "VARCHAR".toList ∨ typeUpper = "TEXT".toList then "string".toList
  else if typeUpper = "BLOB".toList then "binary".toList
  else if typeUpper = "DATE".toList then "date".toList
  else if goContains typeUpper "TIME".toList then "time".toList
  else if goContains typeUpper "TIMESTAMP".toList then "timestamp".toList
  else if goContains typeUpper "DECIMAL".toList then "decimal(38,18)".toList
  else "string".toList

/-- `convertDuckDBTypeToIceberg` from `cmd/create_iceberg_tables/main.go`:
normalize the engine type string (`typeUpper := ToUpper(TrimSpace(...))`),
then map it through the switch of equality / substring cases, defaulting
to `"string"`. -/
def convertDuckDBTypeToIceberg (duckdbType : Str) : Str :=
  convertUpperType (goToUpper (goTrimSpace duckdbType))

/-- The eleven catalog type tokens named by the specification. -/
def icebergTypeTokens : List Str :=
  ["boolean".toList, "int".toList, "long".toList, "float".toList,
   "double".toList, "string".toList, "binary".toList, "date".toList,
   "time".toList, "timestamp".toList, "decimal(38,18)".toList]

/-- A normalized type string matches one of the recognized (non-default)
cases of `convertDuckDBTypeToIceberg`. -/
def recognizedDuckDBType (u : Str) : Prop :=
  u = "BOOLEAN".toList ∨ u = "TINYINT".toList ∨ u = "SMALLINT".toList ∨
  u = "INTEGER".toList ∨ u = "BIGINT".toList ∨ u = "REAL".toList ∨
  u = "FLOAT".toList ∨ u = "DOUBLE".toList ∨
  goContains u "VARCHAR".toList = true ∨ u = "TEXT".toList ∨
  u = "BLOB".toList ∨ u = "DATE".toList ∨
  goContains u "TIME".toList = true ∨
  goContains u "TIMESTAMP".toList = true ∨
  goContains u "DECIMAL".toList = true

instance (u : Str) : Decidable (recognizedDuckDBType u) := by
  unfold recognizedDuckDBType; infer_instance

/-! ### File-system trees and discovery (`findCSVFiles` / `findParquetFiles`) -/

mutual
/-- A file-system entry: a plain file or a directory with children. -/
inductive FSTree where
  | file (name : Str) : FSTree
  | dir (name : Str) (children : FSList) : FSTree
/-- A list of sibling file-system entries. -/
inductive FSList where
  | nil : FSList
  | cons (t : FSTree) (ts : FSList) : FSList
end

/-- The name of a file-system entry. -/
def nameOf : FSTree → Str
  | .file n => n
  | .dir n _ => n

/-- Full path of a child entry inside a directory. -/
def childPath (dir name : Str) : Str := dir ++ '/' :: name

mutual
/-- The walk of `findCSVFiles` / `findParquetFiles` from the two `main.go`
files, visiting an entry whose own full path is `path`: a non-directory
entry whose extension equals `ext` is appended; directories only recurse. -/
def findFilesVisit (ext : Str) (path : Str) : FSTree → List Str
  | .file _ => if goExt path = ext then [path] else []
  | .dir _ children => findFilesList ext path children
/-- Walk a list of sibling entries below directory `dirPath`. -/
def findFilesList (ext : Str) (dirPath : Str) : FSList → List Str
  | .nil => []
  | .cons t ts =>
      findFilesVisit ext (childPath dirPath (nameOf t)) t ++ findFilesList ext dirPath ts
end

mutual
/-- All entries of a tree as `(full path, is-directory)` pairs, in walk
order; this is the specification-side view of the directory tree. -/
def entriesVisit (path : Str) : FSTree → List (Str × Bool)
  | .file _ => [(path, false)]
  | .dir _ children => (path, true) :: entriesList path children
/-- Entries of a list of sibling entries below directory `dirPath`. -/
def entriesList (dirPath : Str) : FSList → List (Str × Bool)
  | .nil => []
  | .cons t ts => entriesVisit (childPath dirPath (nameOf t)) t ++ entriesList dirPath ts
end

/-- `findCSVFiles` from `cmd/csv_to_parquet/main.go`, over a modelled tree
rooted at `root`. -/
def findCSVFiles (root : Str) (t : FSTree) : List Str :=
  findFilesVisit ".csv".toList root t

/-- `findParquetFiles` from `cmd/create_iceberg_tables/main.go`. -/
def findParquetFiles (root : Str) (t : FSTree) : List Str :=
  findFilesVisit ".parquet".toList root t

/-- A concrete directory tree used to exercise discovery: a root with
one `.csv` file and one subdirectory whose own name ends in `.csv` and
which holds a `.txt` file. -/
def sampleTree : FSTree :=
  .dir "data".toList
    (.cons (.file "a.csv".toList)
      (.cons (.dir "sub.csv".toList (.cons (.file "b.txt".toList) .nil)) .nil))

/-! ### Catalog readiness polling (`waitForCatalog`) -/

/-- Outcome of `waitForCatalog`: ready, or the error
`catalog HTTP endpoint not responding after %d attempts`. -/
inductive WaitOutcome where
  | ready : WaitOutcome
  | notResponding (attempts : Nat) : WaitOutcome
deriving DecidableEq

/-- Result of a polling run together with its observable trace:
how many probe calls were made and how many fixed-interval sleeps. -/
structure WaitResult where
  outcome : WaitOutcome
  probes : Nat
  sleeps : Nat
deriving DecidableEq

/-- The `for i := 0; i < maxRetries; i++` loop of `waitForCatalog` from
`cmd/create_iceberg_tables/main.go`; `check i` is the success of the
`checkCatalogHTTP` probe on attempt `i`, `r` the remaining iterations.
On a failed probe the code sleeps only when `i < maxRetries-1`. -/
def waitLoop (check : Nat → Bool) (maxRetries : Nat) (i : Nat) : Nat → WaitResult
  | 0 => ⟨.notResponding maxRetries, 0, 0⟩
  | r + 1 =>
      if check i then ⟨.ready, 1, 0⟩
      else if r = 0 then ⟨.notResponding maxRetries, 1, 0⟩
      else
        let w := waitLoop check maxRetries (i + 1) r
        ⟨w.outcome, w.probes + 1, w.sleeps + 1⟩

/-- `waitForCatalog` from `cmd/create_iceberg_tables/main.go`. -/
def waitForCatalog (check : Nat → Bool) (maxRetries : Nat) : WaitResult :=
  waitLoop check maxRetries 0 maxRetries

/-! ### Iceberg schemas (`create_iceberg_tables`) -/

/-- `IcebergField` from `cmd/create_iceberg_tables/main.go`. -/
structure IcebergField where
  id : Nat
  name : Str
  required : Bool
  type : Str
deriving DecidableEq

/-- `IcebergSchema` from `cmd/create_iceberg_tables/main.go`. -/
structure IcebergSchema where
  type : Str
  schemaID : Nat
  fields : List IcebergField
deriving DecidableEq

/-- `ParquetColumn` from `cmd/create_iceberg_tables/main.go`: one row of
the engine's DESCRIBE output (column name, type string, null indicator). -/
structure ParquetColumn where
  name : Str
  type : Str
  null : Str
deriving DecidableEq

/-- The field-building loop of `readParquetSchemaWithDuckDB`: the field at
loop index `i` gets ID `i + 1`, `required` exactly when the null
indicator equals `"NO"`, and the converted type. -/
def buildIcebergFields : Nat → List ParquetColumn → List IcebergField
  | _, [] => []
  | i, col :: rest =>
      { id := i + 1, name := col.name,
        required := decide (col.null = "NO".toList),
        type := convertDuckDBTypeToIceberg col.type } :: buildIcebergFields (i + 1) rest

/-- `readParquetSchemaWithDuckDB` from `cmd/create_iceberg_tables/main.go`,
applied to the list of DESCRIBE rows the engine returned for the file:
zero columns is an error, otherwise a struct schema with schema-id 0. -/
def readParquetSchemaWithDuckDB (cols : List ParquetColumn) : Except Str IcebergSchema :=
  if cols = [] then .error "no columns found in parquet file schema".toList
  else .ok { type := "struct".toList, schemaID := 0, fields := buildIcebergFields 0 cols }

/-- `createBasicSchema` from `cmd/create_iceberg_tables/main.go`: the
fixed three-field fallback schema. -/
def createBasicSchema (tableName : Str) : IcebergSchema :=
  { type := "struct".toList,
    schemaID := 0,
    fields :=
      [ { id := 1, name := "id".toList, required := false, type := "long".toList },
        { id := 2, name := "data".toList, required := false, type := "string".toList },
        { id := 3, name := "timestamp".toList, required := false, type := "timestamp".toList } ] }

/-- The driver's schema choice in `main` of `cmd/create_iceberg_tables/main.go`:
use the inspected schema, and on error fall back to the template. -/
def schemaForTable (cols : List ParquetColumn) (tableName : Str) : IcebergSchema :=
  match readParquetSchemaWithDuckDB cols with
  | .ok s => s
  | .error _ => createBasicSchema tableName

/-- A concrete two-column DESCRIBE result used to exercise the
inspected-schema builder. -/
def sampleDescribeCols : List ParquetColumn :=
  [ { name := "id".toList, type := "BIGINT".toList, null := "NO".toList },
    { name := "v".toList, type := "DOUBLE".toList, null := "YES".toList } ]

/-! ### Namespace creation (`createNamespace`) -/

/-- `createNamespace` from `cmd/create_iceberg_tables/main.go`, applied to
the HTTP response it received: 409 is success (already exists); anything
other than 200/201 is an error carrying the status and body. -/
def createNamespace (status : Nat) (body : Str) : Except (Nat × Str) Unit :=
  if status = 409 then .ok ()
  else if status ≠ 200 ∧ status ≠ 201 then .error (status, body)
  else .ok ()

/-! ### The csv-to-parquet driver (`cmd/csv_to_parquet/main.go`) -/

/-- Per-file outcomes of the engine calls the loop body makes for one
discovered CSV file. -/
structure FileOutcome where
  absOk : Bool
  createTempOk : Bool
  countOk : Bool
  copyOk : Bool
deriving DecidableEq

/-- Environment of one run of the csv-to-parquet driver: the outcome of
every external call `main` makes, in program order. -/
structure CsvEnv where
  openOk : Bool
  pingOk : Bool
  dataDirExists : Bool
  mkdirDataOk : Bool
  walkOk : Bool
  files : List (Str × FileOutcome)
  mkdirParquetOk : Bool
deriving DecidableEq

/-- The distinct `log.Fatal` sites of `main` in `cmd/csv_to_parquet/main.go`. -/
inductive FatalReason where
  | openFailed : FatalReason
  | pingFailed : FatalReason
  | mkdirDataFailed : FatalReason
  | walkFailed : FatalReason
  | mkdirParquetFailed : FatalReason
deriving DecidableEq

/-- How a run of the csv-to-parquet driver ends: aborted by `log.Fatal`,
a clean early exit (exit code 0) after creating the missing data
directory or after finding no CSV files, or completion of the loop with
the per-file conversion outcomes and the summary count the program
prints as `CSV files processed`. -/
inductive RunResult where
  | fatal (r : FatalReason) : RunResult
  | createdDataDirExit : RunResult
  | noFilesExit : RunResult
  | completed (perFile : List Bool) (reportedProcessed : Nat) : RunResult
deriving DecidableEq

/-- One iteration of the conversion loop: every failing step is logged
and ends the iteration with `continue`, so the iteration only reports
whether the file converted. -/
def processFile (f : FileOutcome) : Bool :=
  f.absOk && f.createTempOk && f.countOk && f.copyOk

/-- `main` of `cmd/csv_to_parquet/main.go` over an environment of call
outcomes: open engine, ping, stat the data directory (creating it and
exiting cleanly when missing), discover CSV files, exit cleanly when
none, create the output directory, then loop over every file —
per-file failures `continue` — and print the summary with
`len(csvFiles)` as the processed count. -/
def csvToParquetMain (env : CsvEnv) : RunResult :=
  if !env.openOk then .fatal .openFailed
  else if !env.pingOk then .fatal .pingFailed
  else if !env.dataDirExists then
    if !env.mkdirDataOk then .fatal .mkdirDataFailed else .createdDataDirExit
  else if !env.walkOk then .fatal .walkFailed
  else if env.files = [] then .noFilesExit
  else if !env.mkdirParquetOk then .fatal .mkdirParquetFailed
  else .completed (env.files.map (fun fp => processFile fp.2)) env.files.length

/-! ### Helper lemmas -/

theorem leadsWith_nil (s : Str) : leadsWith s [] = true := by
  cases s <;> rfl

theorem leadsWith_append (a b s : Str) (h : leadsWith s (a ++ b) = true) :
    leadsWith s a = true := by
  induction a generalizing s with
  | nil => exact leadsWith_nil s
  | cons c cs ih =>
      cases s with
      | nil => simp [leadsWith] at h
      | cons d ds =>
          simp only [List.cons_append, leadsWith, Bool.and_eq_true] at h ⊢
          exact ⟨h.1, ih ds h.2⟩

theorem goContains_append_left (u a b : Str) (h : goContains u (a ++ b) = true) :
    goContains u a = true := by
  induction u with
  | nil =>
      simp only [goContains] at h ⊢
      exact leadsWith_append a b [] h
  | cons c cs ih =>
      simp only [goContains, Bool.or_eq_true] at h ⊢
      rcases h with h | h
      · exact Or.inl (leadsWith_append a b _ h)
      · exact Or.inr (ih h)

/-! ### Claim theorems: type mapping -/

set_option maxHeartbeats 1000000 in
theorem convertUpperType_mem (u : Str) : convertUpperType u ∈ icebergTypeTokens := by
  unfold convertUpperType
  split_ifs <;> decide

theorem convertUpperType_default (u : Str) (h : ¬ recognizedDuckDBType u) :
    convertUpperType u = "string".toList := by
  simp only [recognizedDuckDBType, not_or] at h
  obtain ⟨h1, h2, h3, h4, h5, h6, h7, h8, h9, h10, h11, h12, h13, h14, h15⟩ := h
  unfold convertUpperType
  rw [if_neg h1,
      if_neg (not_or.mpr ⟨h2, not_or.mpr ⟨h3, h4⟩⟩),
      if_neg h5,
      if_neg (not_or.mpr ⟨h6, h7⟩),
      if_neg h8,
      if_neg (not_or.mpr ⟨h9, h10⟩),
      if_neg h11,
      if_neg h12,
      if_neg h13,
      if_neg h14,
      if_neg h15]

/-- C1: for every input type string, `convertDuckDBTypeToIceberg` is total
and returns exactly one element of the eleven-token set; every string not
matched by a recognized equality/substring rule maps to `"string"`,
never to an error. -/
theorem convertDuckDBTypeToIceberg_total :
    (∀ s : Str, convertDuckDBTypeToIceberg s ∈ icebergTypeTokens)
    ∧ (∀ s : Str, ¬ recognizedDuckDBType (goToUpper (goTrimSpace s)) →
        convertDuckDBTypeToIceberg s = "string".toList) :=
  ⟨fun s => convertUpperType_mem (goToUpper (goTrimSpace s)),
   fun s h => convertUpperType_default (goToUpper (goTrimSpace s)) h⟩

/-- Witness for C1 at the unrecognized engine type `"UUID"`. -/
theorem convertDuckDBTypeToIceberg_total_witness :
    convertDuckDBTypeToIceberg "UUID".toList ∈ icebergTypeTokens
    ∧ convertDuckDBTypeToIceberg "UUID".toList = "string".toList :=
  ⟨convertDuckDBTypeToIceberg_total.1 "UUID".toList,
   convertDuckDBTypeToIceberg_total.2 "UUID".toList (by decide)⟩

set_option maxHeartbeats 1000000 in
/-- C2: `convertDuckDBTypeToIceberg` never returns `"timestamp"`: the
case testing `Contains(type, "TIME")` precedes the case testing
`Contains(type, "TIMESTAMP")`, and every string containing
`"TIMESTAMP"` contains `"TIME"`, so the `"timestamp"` branch is
unreachable. -/
theorem convertDuckDBTypeToIceberg_ne_timestamp (s : Str) :
    convertDuckDBTypeToIceberg s ≠ "timestamp".toList := by
  show convertUpperType (goToUpper (goTrimSpace s)) ≠ "timestamp".toList
  generalize goToUpper (goTrimSpace s) = u
  unfold convertUpperType
  split_ifs with h1 h2 h3 h4 h5 h6 h7 h8 h9 h10 h11
  · decide
  · decide
  · decide
  · decide
  · decide
  · decide
  · decide
  · decide
  · decide
  · exfalso
    apply h9
    have hsplit : "TIMESTAMP".toList = "TIME".toList ++ "STAMP".toList := by decide
    rw [hsplit] at h10
    exact goContains_append_left _ _ _ h10
  · decide
  · decide

/-! ### Claim theorems: template schema, namespace creation, polling -/

/-- C8: the template (fallback) schema is exactly a struct schema with
schema-id 0 and three fields, in order `id: long`, `data: string`,
`timestamp: timestamp`, each with ID 1, 2, 3 and `required = false`,
independent of the table name passed in. -/
theorem createBasicSchema_fixed (tableName : Str) :
    createBasicSchema tableName =
      { type := "struct".toList,
        schemaID := 0,
        fields :=
          [ { id := 1, name := "id".toList, required := false, type := "long".toList },
            { id := 2, name := "data".toList, required := false, type := "string".toList },
            { id := 3, name := "timestamp".toList, required := false,
              type := "timestamp".toList } ] } := rfl

/-- C6: `createNamespace` succeeds exactly on response status 200, 201 or
409, and on every other status returns the error carrying the response
status and body; in particular a second call that observes 409 still
succeeds. -/
theorem createNamespace_spec (status : Nat) (body : Str) :
    (createNamespace status body = .ok () ↔ (status = 200 ∨ status = 201 ∨ status = 409))
    ∧ ((status ≠ 200 ∧ status ≠ 201 ∧ status ≠ 409) →
        createNamespace status body = .error (status, body))
    ∧ createNamespace 409 body = .ok () := by
  refine ⟨?_, ?_, ?_⟩
  · unfold createNamespace
    split_ifs with h1 h2
    · simp [h1]
    · simp only [not_and_or, not_not] at h2
      constructor
      · intro h
        exact absurd h (by simp)
      · intro h
        rcases h with h | h | h <;> omega
    · push_neg at h2
      by_cases ha : status = 200
      · simp [ha]
      · simp [h2 ha]
  · intro ⟨ha, hb, hc⟩
    unfold createNamespace
    rw [if_neg hc, if_pos ⟨ha, hb⟩]
  · unfold createNamespace
    rw [if_pos rfl]

/-- Witness for C6: a 500 response fails with status and body, a 409
response succeeds. -/
theorem createNamespace_spec_witness :
    createNamespace 500 "oops".toList = .error (500, "oops".toList)
    ∧ createNamespace 409 "dup".toList = .ok () :=
  ⟨(createNamespace_spec 500 "oops".toList).2.1 (by omega),
   (createNamespace_spec 409 "dup".toList).2.2⟩

theorem waitLoop_succ (check : Nat → Bool) (m i r : Nat) :
    waitLoop check m i (r + 1) =
      if check i then ⟨.ready, 1, 0⟩
      else if r = 0 then ⟨.notResponding m, 1, 0⟩
      else ⟨(waitLoop check m (i + 1) r).outcome,
            (waitLoop check m (i + 1) r).probes + 1,
            (waitLoop check m (i + 1) r).sleeps + 1⟩ := rfl

theorem waitLoop_all_fail (check : Nat → Bool) (m : Nat) :
    ∀ n i, 1 ≤ n → (∀ j, j < n → check (i + j) = false) →
      waitLoop check m i n = ⟨.notResponding m, n, n - 1⟩ := by
  intro n
  induction n with
  | zero => omega
  | succ r ih =>
      intro i _ hfail
      have h0 : check i = false := by simpa using hfail 0 (by omega)
      rw [waitLoop_succ, if_neg (by simp [h0])]
      cases r with
      | zero => rw [if_pos rfl]
      | succ r2 =>
          rw [if_neg (by omega)]
          have hrec := ih (i + 1) (by omega) (fun j hj => by
            have := hfail (j + 1) (by omega)
            simpa [Nat.add_assoc, Nat.add_comm 1 j] using this)
          rw [hrec]
          simp

theorem waitLoop_first_success (check : Nat → Bool) (m : Nat) :
    ∀ k i n, k < n → check (i + k) = true → (∀ j, j < k → check (i + j) = false) →
      waitLoop check m i n = ⟨.ready, k + 1, k⟩ := by
  intro k
  induction k with
  | zero =>
      intro i n hn hk _
      obtain ⟨r, rfl⟩ : ∃ r, n = r + 1 := ⟨n - 1, by omega⟩
      have h0 : check i = true := by simpa using hk
      rw [waitLoop_succ, if_pos h0]
  | succ k2 ih =>
      intro i n hn hk hfail
      obtain ⟨r, rfl⟩ : ∃ r, n = r + 1 := ⟨n - 1, by omega⟩
      have h0 : check i = false := by simpa using hfail 0 (by omega)
      rw [waitLoop_succ, if_neg (by simp [h0]), if_neg (by omega : ¬ r = 0)]
      have hrec := ih (i + 1) r (by omega)
        (by simpa [Nat.add_assoc, Nat.add_comm 1 k2] using hk)
        (fun j hj => by
          have := hfail (j + 1) (by omega)
          simpa [Nat.add_assoc, Nat.add_comm 1 j] using this)
      rw [hrec]

/-- C5: for `maxRetries ≥ 1`, if no probe ever succeeds `waitForCatalog`
makes exactly `maxRetries` probe calls, sleeps after each failed probe
except the last, and reports the catalog unavailable; if attempt `k` is
the first success it returns ready immediately after `k + 1` probes and
`k` sleeps. -/
theorem waitForCatalog_spec (check : Nat → Bool) (m : Nat) (hm : 1 ≤ m) :
    ((∀ i, i < m → check i = false) →
       waitForCatalog check m = ⟨.notResponding m, m, m - 1⟩)
    ∧ (∀ k, k < m → check k = true → (∀ j, j < k → check j = false) →
       waitForCatalog check m = ⟨.ready, k + 1, k⟩) := by
  constructor
  · intro hfail
    exact waitLoop_all_fail check m m 0 hm (fun j hj => by simpa using hfail j hj)
  · intro k hk hsucc hfail
    exact waitLoop_first_success check m k 0 m hk (by simpa using hsucc)
      (fun j hj => by simpa using hfail j hj)

/-- Witness for C5: three always-failing probes, and success on the
second of three attempts. -/
theorem waitForCatalog_spec_witness :
    waitForCatalog (fun _ => false) 3 = ⟨.notResponding 3, 3, 2⟩
    ∧ waitForCatalog (fun i => decide (i = 1)) 3 = ⟨.ready, 2, 1⟩ :=
  ⟨(waitForCatalog_spec (fun _ => false) 3 (by omega)).1 (fun i _ => rfl),
   (waitForCatalog_spec (fun i => decide (i = 1)) 3 (by omega)).2 1 (by omega) (by decide)
     (fun j hj => by
        have hj0 : j = 0 := by omega
        subst hj0
        rfl)⟩

/-! ### Claim theorems: csv-to-parquet driver -/

/-- C7 counterexample: a run in which the engine connection and the
output-directory creation both succeed is still aborted immediately by a
file-discovery (directory walk) failure, so engine-connection failure
and output-directory-creation failure are not the only immediate aborts. -/
theorem csvToParquet_walk_abort_counterexample :
    csvToParquetMain
        { openOk := true, pingOk := true, dataDirExists := true, mkdirDataOk := true,
          walkOk := false, files := [], mkdirParquetOk := true }
      = .fatal .walkFailed
    ∧ (CsvEnv.openOk
        { openOk := true, pingOk := true, dataDirExists := true, mkdirDataOk := true,
          walkOk := false, files := [], mkdirParquetOk := true } = true)
    ∧ (CsvEnv.mkdirParquetOk
        { openOk := true, pingOk := true, dataDirExists := true, mkdirDataOk := true,
          walkOk := false, files := [], mkdirParquetOk := true } = true) :=
  ⟨rfl, rfl, rfl⟩

/-- C7 (amended): per-file load/convert failures are logged and the loop
continues, the final summary reports the number of discovered files as
the processed count regardless of per-file failures; engine-connection
failure (open or ping), data-directory-creation failure, file-discovery
(walk) failure and output-directory-creation failure each abort the run
immediately. -/
theorem csvToParquet_failure_policy (env : CsvEnv) :
    (env.openOk = true → env.pingOk = true → env.dataDirExists = true → env.walkOk = true →
       env.files ≠ [] → env.mkdirParquetOk = true →
       csvToParquetMain env =
         .completed (env.files.map (fun fp => processFile fp.2)) env.files.length)
    ∧ (env.openOk = false → csvToParquetMain env = .fatal .openFailed)
    ∧ (env.openOk = true → env.pingOk = false → csvToParquetMain env = .fatal .pingFailed)
    ∧ (env.openOk = true → env.pingOk = true → env.dataDirExists = false →
        env.mkdirDataOk = false → csvToParquetMain env = .fatal .mkdirDataFailed)
    ∧ (env.openOk = true → env.pingOk = true → env.dataDirExists = true → env.walkOk = false →
        csvToParquetMain env = .fatal .walkFailed)
    ∧ (env.openOk = true → env.pingOk = true → env.dataDirExists = true → env.walkOk = true →
        env.files ≠ [] → env.mkdirParquetOk = false →
        csvToParquetMain env = .fatal .mkdirParquetFailed) := by
  refine ⟨?_, ?_, ?_, ?_, ?_, ?_⟩
  · intro h1 h2 h3 h4 h5 h6
    simp [csvToParquetMain, h1, h2, h3, h4, h5, h6]
  · intro h1
    simp [csvToParquetMain, h1]
  · intro h1 h2
    simp [csvToParquetMain, h1, h2]
  · intro h1 h2 h3 h4
    simp [csvToParquetMain, h1, h2, h3, h4]
  · intro h1 h2 h3 h4
    simp [csvToParquetMain, h1, h2, h3, h4]
  · intro h1 h2 h3 h4 h5 h6
    simp [csvToParquetMain, h1, h2, h3, h4, h5, h6]

/-- Witness for C7: one discovered file whose every engine step fails
still yields a completed run whose summary reports 1 processed file. -/
theorem csvToParquet_failure_policy_witness :
    csvToParquetMain
        { openOk := true, pingOk := true, dataDirExists := true, mkdirDataOk := true,
          walkOk := true,
          files := [("data/a.csv".toList,
            { absOk := false, createTempOk := false, countOk := false, copyOk := false })],
          mkdirParquetOk := true }
      = .completed [false] 1 := by
  have h := (csvToParquet_failure_policy
    { openOk := true, pingOk := true, dataDirExists := true, mkdirDataOk := true,
      walkOk := true,
      files := [("data/a.csv".toList,
        { absOk := false, createTempOk := false, countOk := false, copyOk := false })],
      mkdirParquetOk := true }).1 rfl rfl rfl rfl (by simp) rfl
  simpa [processFile] using h

/-- C9: when the data directory is missing and its creation succeeds,
the run exits cleanly after creating it, for every possible discovery
outcome (discovery is never attempted); when discovery finds zero CSV
files, the run exits cleanly with an informational message. -/
theorem csvToParquet_clean_exits (env : CsvEnv) :
    (env.openOk = true → env.pingOk = true → env.dataDirExists = false → env.mkdirDataOk = true →
       csvToParquetMain env = .createdDataDirExit)
    ∧ (env.openOk = true → env.pingOk = true → env.dataDirExists = true → env.walkOk = true →
       env.files = [] → csvToParquetMain env = .noFilesExit) := by
  constructor
  · intro h1 h2 h3 h4
    simp [csvToParquetMain, h1, h2, h3, h4]
  · intro h1 h2 h3 h4 h5
    simp [csvToParquetMain, h1, h2, h3, h4, h5]

/-- Witness for C9: the missing-directory exit fires even in an
environment whose directory walk would fail and whose file list is
nonempty (discovery is not reached), and an existing but empty data
directory exits cleanly. -/
theorem csvToParquet_clean_exits_witness :
    csvToParquetMain
        { openOk := true, pingOk := true, dataDirExists := false, mkdirDataOk := true,
          walkOk := false,
          files := [("x.csv".toList,
            { absOk := true, createTempOk := true, countOk := true, copyOk := true })],
          mkdirParquetOk := false }
      = .createdDataDirExit
    ∧ csvToParquetMain
        { openOk := true, pingOk := true, dataDirExists := true, mkdirDataOk := true,
          walkOk := true, files := [], mkdirParquetOk := false }
      = .noFilesExit :=
  ⟨(csvToParquet_clean_exits _).1 rfl rfl rfl rfl,
   (csvToParquet_clean_exits _).2 rfl rfl rfl rfl rfl⟩

/-! ### Claim theorems: inspected schema builder -/

theorem buildIcebergFields_map_id (cols : List ParquetColumn) :
    ∀ i, (buildIcebergFields i cols).map (fun f => f.id) = List.range' (i + 1) cols.length := by
  induction cols with
  | nil => intro i; rfl
  | cons c cs ih =>
      intro i
      simp [buildIcebergFields, List.range'_succ, ih (i + 1)]

theorem buildIcebergFields_map_name (cols : List ParquetColumn) :
    ∀ i, (buildIcebergFields i cols).map (fun f => f.name) = cols.map (fun c => c.name) := by
  induction cols with
  | nil => intro i; rfl
  | cons c cs ih => intro i; simp [buildIcebergFields, ih (i + 1)]

theorem buildIcebergFields_map_required (cols : List ParquetColumn) :
    ∀ i, (buildIcebergFields i cols).map (fun f => f.required)
      = cols.map (fun c => decide (c.null = "NO".toList)) := by
  induction cols with
  | nil => intro i; rfl
  | cons c cs ih => intro i; simp [buildIcebergFields, ih (i + 1)]

theorem buildIcebergFields_map_type (cols : List ParquetColumn) :
    ∀ i, (buildIcebergFields i cols).map (fun f => f.type)
      = cols.map (fun c => convertDuckDBTypeToIceberg c.type) := by
  induction cols with
  | nil => intro i; rfl
  | cons c cs ih => intro i; simp [buildIcebergFields, ih (i + 1)]

/-- C10: `readParquetSchemaWithDuckDB` assigns field IDs consecutively
starting at 1 in DESCRIBE column order, sets `required` exactly when the
null indicator equals `"NO"`, converts each column type, and returns an
error — never an empty field list — when the DESCRIBE result has zero
columns, in which case the driver falls back to the template schema. -/
theorem readParquetSchemaWithDuckDB_spec (cols : List ParquetColumn) (tableName : Str) :
    (cols = [] →
       readParquetSchemaWithDuckDB cols
         = .error "no columns found in parquet file schema".toList
       ∧ schemaForTable cols tableName = createBasicSchema tableName)
    ∧ (∀ s, readParquetSchemaWithDuckDB cols = .ok s →
        s.type = "struct".toList
        ∧ s.schemaID = 0
        ∧ s.fields ≠ []
        ∧ s.fields.map (fun f => f.id) = List.range' 1 cols.length
        ∧ s.fields.map (fun f => f.name) = cols.map (fun c => c.name)
        ∧ s.fields.map (fun f => f.required) = cols.map (fun c => decide (c.null = "NO".toList))
        ∧ s.fields.map (fun f => f.type) = cols.map (fun c => convertDuckDBTypeToIceberg c.type)) := by
  constructor
  · intro h
    subst h
    exact ⟨rfl, rfl⟩
  · intro s hs
    unfold readParquetSchemaWithDuckDB at hs
    split_ifs at hs with hnil
    obtain rfl : IcebergSchema.mk "struct".toList 0 (buildIcebergFields 0 cols) = s := by
      injection hs
    refine ⟨rfl, rfl, ?_, ?_, ?_, ?_, ?_⟩
    · obtain ⟨c, cs, rfl⟩ : ∃ c cs, cols = c :: cs := by
        cases cols with
        | nil => exact absurd rfl hnil
        | cons c cs => exact ⟨c, cs, rfl⟩
      simp [buildIcebergFields]
    · simpa using buildIcebergFields_map_id cols 0
    · exact buildIcebergFields_map_name cols 0
    · exact buildIcebergFields_map_required cols 0
    · exact buildIcebergFields_map_type cols 0

/-- Witness for C10: the empty DESCRIBE result errors and falls back to
the template, and a two-column DESCRIBE result yields IDs 1 and 2 with
the required flags from the null indicators. -/
theorem readParquetSchemaWithDuckDB_spec_witness :
    (readParquetSchemaWithDuckDB []
       = .error "no columns found in parquet file schema".toList
     ∧ schemaForTable [] "t".toList = createBasicSchema "t".toList)
    ∧ (buildIcebergFields 0 sampleDescribeCols).map (fun f => f.id) = [1, 2]
    ∧ (buildIcebergFields 0 sampleDescribeCols).map (fun f => f.required) = [true, false] := by
  refine ⟨(readParquetSchemaWithDuckDB_spec [] "t".toList).1 rfl, ?_, ?_⟩
  · have h := ((readParquetSchemaWithDuckDB_spec sampleDescribeCols "t".toList).2
      (IcebergSchema.mk "struct".toList 0 (buildIcebergFields 0 sampleDescribeCols)) rfl).2.2.2.1
    rw [h]
    rfl
  · have h := ((readParquetSchemaWithDuckDB_spec sampleDescribeCols "t".toList).2
      (IcebergSchema.mk "struct".toList 0 (buildIcebergFields 0 sampleDescribeCols)) rfl).2.2.2.2.2.1
    rw [h]
    decide

/-! ### Claim theorems: file discovery -/

mutual
theorem findFilesVisit_eq_filter (ext path : Str) (t : FSTree) :
    findFilesVisit ext path t =
      ((entriesVisit path t).filter (fun e => !e.2 && decide (goExt e.1 = ext))).map
        Prod.fst := by
  cases t with
  | file n =>
      by_cases h : goExt path = ext
      · simp [findFilesVisit, entriesVisit, List.filter_cons, h]
      · simp [findFilesVisit, entriesVisit, List.filter_cons, h]
  | dir n ch =>
      have h := findFilesList_eq_filter ext path ch
      simp [findFilesVisit, entriesVisit, List.filter_cons, h]
theorem findFilesList_eq_filter (ext dirPath : Str) (l : FSList) :
    findFilesList ext dirPath l =
      ((entriesList dirPath l).filter (fun e => !e.2 && decide (goExt e.1 = ext))).map
        Prod.fst := by
  cases l with
  | nil => rfl
  | cons t ts =>
      have h1 := findFilesVisit_eq_filter ext (childPath dirPath (nameOf t)) t
      have h2 := findFilesList_eq_filter ext dirPath ts
      simp [findFilesList, entriesList, List.filter_append, h1, h2]
end

/-- C4: the walk returns exactly the non-directory entries whose
extension equals the target extension, at arbitrary depth; entries with
other extensions are never returned, and directory entries are never
returned even when their names end in the target extension; in
particular this holds for `findCSVFiles` and `findParquetFiles`. -/
theorem findFiles_discovery_exact (ext root : Str) (t : FSTree) :
    (findFilesVisit ext root t =
       ((entriesVisit root t).filter (fun e => !e.2 && decide (goExt e.1 = ext))).map
         Prod.fst)
    ∧ (∀ p, p ∈ findFilesVisit ext root t →
        (p, false) ∈ entriesVisit root t ∧ goExt p = ext)
    ∧ (∀ p, (p, false) ∈ entriesVisit root t → goExt p = ext →
        p ∈ findFilesVisit ext root t)
    ∧ findCSVFiles root t
        = ((entriesVisit root t).filter
            (fun e => !e.2 && decide (goExt e.1 = ".csv".toList))).map Prod.fst
    ∧ findParquetFiles root t
        = ((entriesVisit root t).filter
            (fun e => !e.2 && decide (goExt e.1 = ".parquet".toList))).map Prod.fst := by
  refine ⟨findFilesVisit_eq_filter ext root t, ?_, ?_,
    findFilesVisit_eq_filter ".csv".toList root t,
    findFilesVisit_eq_filter ".parquet".toList root t⟩
  · intro p hp
    rw [findFilesVisit_eq_filter] at hp
    simp only [List.mem_map, List.mem_filter] at hp
    obtain ⟨⟨q, isdir⟩, ⟨hmem, hcond⟩, rfl⟩ := hp
    simp only [Bool.and_eq_true, Bool.not_eq_true', decide_eq_true_eq] at hcond
    obtain ⟨hdir, hext⟩ := hcond
    subst hdir
    exact ⟨hmem, hext⟩
  · intro p hmem hext
    rw [findFilesVisit_eq_filter]
    simp only [List.mem_map, List.mem_filter]
    exact ⟨(p, false), ⟨hmem, by simp [hext]⟩, rfl⟩

/-- Witness for C4 on the concrete `sampleTree`: the nested `.csv` file
is returned, and the full result contains neither the `.txt` file nor
the directory named `sub.csv`. -/
theorem findFiles_discovery_exact_witness :
    "data/a.csv".toList ∈ findFilesVisit ".csv".toList "data".toList sampleTree :=
  (findFiles_discovery_exact ".csv".toList "data".toList sampleTree).2.2.1
    "data/a.csv".toList (by decide) (by decide)

/-! ### Claim theorems: name sanitizer -/

theorem dropWhile_eq_self_of_head (p : Char → Bool) (l : Str) (h : ∀ c ∈ l, p c = false) :
    l.dropWhile p = l := by
  cases l with
  | nil => rfl
  | cons a l => simp [List.dropWhile_cons, h a (List.mem_cons_self a l)]

theorem takeWhile_eq_self_of_all (p : Char → Bool) :
    ∀ l : Str, (∀ c ∈ l, p c = true) → l.takeWhile p = l := by
  intro l
  induction l with
  | nil => intro _; rfl
  | cons a l ih =>
      intro h
      rw [List.takeWhile_cons, if_pos (h a (List.mem_cons_self a l)),
        ih (fun c hc => h c (List.mem_cons_of_mem a hc))]

theorem takeWhile_mem_pred (p : Char → Bool) :
    ∀ l : Str, ∀ c, c ∈ l.takeWhile p → p c = true := by
  intro l
  induction l with
  | nil => intro c hc; simp [List.takeWhile] at hc
  | cons a l ih =>
      intro c hc
      rw [List.takeWhile_cons] at hc
      by_cases ha : p a = true
      · rw [if_pos ha] at hc
        rcases List.mem_cons.mp hc with rfl | hc2
        · exact ha
        · exact ih c hc2
      · rw [if_neg ha] at hc
        simp at hc

theorem takeThroughDot_eq_none_of_not_mem :
    ∀ l : Str, '.' ∉ l → takeThroughDot l = none := by
  intro l
  induction l with
  | nil => intro _; rfl
  | cons c cs ih =>
      intro h
      have hc : ¬ c = '.' := fun hc => h (by rw [hc]; exact List.mem_cons_self _ _)
      simp [takeThroughDot, hc, ih (fun hm => h (List.mem_cons_of_mem c hm))]

theorem replaceAllChar_eq_self (pat repl : Char) :
    ∀ s : Str, pat ∉ s → replaceAllChar s pat repl = s := by
  intro s
  induction s with
  | nil => intro _; rfl
  | cons a l ih =>
      intro h
      have ha : ¬ a = pat := fun hh => h (by rw [← hh]; exact List.mem_cons_self a l)
      have hl : pat ∉ l := fun hm => h (List.mem_cons_of_mem a hm)
      show (if a = pat then repl else a) :: replaceAllChar l pat repl = a :: l
      rw [if_neg ha, ih hl]

theorem not_mem_replaceAllChar_self (pat repl : Char) (h : pat ≠ repl) (s : Str) :
    pat ∉ replaceAllChar s pat repl := by
  intro hmem
  unfold replaceAllChar at hmem
  simp only [List.mem_map] at hmem
  obtain ⟨c, _, hc⟩ := hmem
  by_cases hcp : c = pat
  · rw [if_pos hcp] at hc
    exact h hc.symm
  · rw [if_neg hcp] at hc
    exact hcp hc

theorem not_mem_replaceAllChar_of (pat repl c : Char) (hrepl : c ≠ repl) (s : Str)
    (hs : c ∉ s) : c ∉ replaceAllChar s pat repl := by
  intro hmem
  unfold replaceAllChar at hmem
  simp only [List.mem_map] at hmem
  obtain ⟨d, hd, hdc⟩ := hmem
  by_cases hdp : d = pat
  · rw [if_pos hdp] at hdc
    exact hrepl hdc.symm
  · rw [if_neg hdp] at hdc
    exact hs (hdc ▸ hd)

theorem mem_of_mem_trimSuffix (s suffix : Str) (c : Char) (h : c ∈ trimSuffix s suffix) :
    c ∈ s := by
  unfold trimSuffix at h
  split_ifs at h
  · exact List.take_subset _ _ h
  · exact h

theorem goBase_slash_cases (p : Str) : goBase p = ['/'] ∨ '/' ∉ goBase p := by
  unfold goBase
  split_ifs with h1 h2
  · right
    decide
  · left
    rfl
  · right
    intro hmem
    unfold afterLastSlash at hmem
    have hmem2 := List.mem_reverse.mp hmem
    have hpred := takeWhile_mem_pred (fun c => !isSep c) _ '/' hmem2
    simp [isSep] at hpred

theorem sanitizeTableName_fixpoint (y : Str) (hdot : '.' ∉ y) (hdash : '-' ∉ y)
    (hspace : ' ' ∉ y) (hslash : y = ['/'] ∨ '/' ∉ y) : sanitizeTableName y = y := by
  rcases hslash with rfl | hslash
  · decide
  · by_cases hnil : y = []
    · rw [hnil]
      decide
    · have hall : ∀ c ∈ y.reverse, (fun c => !isSep c) c = true := by
        intro c hc
        have hcy : c ∈ y := List.mem_reverse.mp hc
        have hne : c ≠ '/' := fun hceq => hslash (hceq ▸ hcy)
        simp [isSep, hne]
      have hdrop : dropTrailingSlashes y = y := by
        unfold dropTrailingSlashes
        rw [dropWhile_eq_self_of_head isSep y.reverse ?hh, List.reverse_reverse]
        case hh =>
          intro c hc
          have hcy : c ∈ y := List.mem_reverse.mp hc
          have hne : c ≠ '/' := fun hceq => hslash (hceq ▸ hcy)
          simp [isSep, hne]
      have htake : y.reverse.takeWhile (fun c => !isSep c) = y.reverse :=
        takeWhile_eq_self_of_all _ y.reverse hall
      have hbase : goBase y = y := by
        unfold goBase afterLastSlash
        rw [if_neg hnil, hdrop, htake, List.reverse_reverse, if_neg hnil]
      have hext : goExt y = [] := by
        unfold goExt
        rw [htake, takeThroughDot_eq_none_of_not_mem y.reverse
          (fun hm => hdot (List.mem_reverse.mp hm))]
      have htrim : trimSuffix y [] = y := by
        unfold trimSuffix
        rw [if_pos ?pos, List.length_nil, Nat.sub_zero, List.take_length]
        case pos =>
          unfold hasSuffix
          rw [List.reverse_nil]
          exact leadsWith_nil y.reverse
      show replaceAllChar (replaceAllChar (replaceAllChar
        (trimSuffix (goBase y) (goExt (goBase y))) '-' '_') ' ' '_') '.' '_' = y
      rw [hbase, hext, htrim, replaceAllChar_eq_self '-' '_' y hdash,
        replaceAllChar_eq_self ' ' '_' y hspace, replaceAllChar_eq_self '.' '_' y hdot]

/-- C3: the name sanitizer is a pure function (basename, strip final
extension, replace `'-'`, `' '`, `'.'` with `'_'`) and is idempotent:
`sanitize (sanitize x) = sanitize x` for every string, and
`sanitize "a-b c.d.csv" = "a_b_c_d"`. -/
theorem sanitizeTableName_idempotent :
    (∀ x : Str, sanitizeTableName (sanitizeTableName x) = sanitizeTableName x)
    ∧ sanitizeTableName "a-b c.d.csv".toList = "a_b_c_d".toList := by
  constructor
  · intro x
    apply sanitizeTableName_fixpoint
    · show '.' ∉ replaceAllChar (replaceAllChar (replaceAllChar
        (trimSuffix (goBase x) (goExt (goBase x))) '-' '_') ' ' '_') '.' '_'
      exact not_mem_replaceAllChar_self '.' '_' (by decide) _
    · show '-' ∉ replaceAllChar (replaceAllChar (replaceAllChar
        (trimSuffix (goBase x) (goExt (goBase x))) '-' '_') ' ' '_') '.' '_'
      apply not_mem_replaceAllChar_of _ _ _ (by decide)
      apply not_mem_replaceAllChar_of _ _ _ (by decide)
      exact not_mem_replaceAllChar_self '-' '_' (by decide) _
    · show ' ' ∉ replaceAllChar (replaceAllChar (replaceAllChar
        (trimSuffix (goBase x) (goExt (goBase x))) '-' '_') ' ' '_') '.' '_'
      apply not_mem_replaceAllChar_of _ _ _ (by decide)
      exact not_mem_replaceAllChar_self ' ' '_' (by decide) _
    · rcases goBase_slash_cases x with hb | hb
      · left
        show replaceAllChar (replaceAllChar (replaceAllChar
          (trimSuffix (goBase x) (goExt (goBase x))) '-' '_') ' ' '_') '.' '_' = ['/']
        rw [hb]
        decide
      · right
        show '/' ∉ replaceAllChar (replaceAllChar (replaceAllChar
          (trimSuffix (goBase x) (goExt (goBase x))) '-' '_') ' ' '_') '.' '_'
        apply not_mem_replaceAllChar_of _ _ _ (by decide)
        apply not_mem_replaceAllChar_of _ _ _ (by decide)
        apply not_mem_replaceAllChar_of _ _ _ (by decide)
        intro hmem
        exact hb (mem_of_mem_trimSuffix _ _ _ hmem)
  · decide
